import Mathlib

/-!
Shallow embedding of `pkg/cmd/backup/list.go` (the `list` subcommand of the
backup plugin) and proofs about it.

Modelling conventions:
* Go errors are modelled by their message string (`Err`); a nil error is
  `none : Option Err`, a fallible call returns `Except Err α`.
* A Go `interface{}` value reachable from an unstructured object is modelled
  by `GoVal`: nil, a string, a string-keyed map, or anything else (`other`).
* A Go runtime panic (failed type assertion, nil-pointer dereference) is
  modelled by `Option`/a dedicated `panicked` constructor: `none`/`panicked`
  means the program aborts, distinct from returning an error.
* Go map iteration (labels) has unspecified order; the map is modelled as an
  association list and theorems quantify over every order.
* The external collaborators (kubectl factory, resource builder, dynamic
  client) are inputs: functions and result values the command consumes.
-/

namespace BackupList

/-- Go error values, identified by their message (`err.Error()`). -/
abbrev Err := String

/-- Result of `rest.Config` construction; its contents are irrelevant here. -/
abbrev RESTConfig := String

/-- A Go `interface{}` value inside an unstructured object: nil, a plain
string, a string-keyed mapping, or any other shape. -/
inductive GoVal where
  | nullv : GoVal
  | str : String → GoVal
  | mapv : List (String × GoVal) → GoVal
  | other : GoVal

/-- Association-list lookup, modelling Go map indexing `m[k]` (absent key
gives the zero value, i.e. `none` here). -/
def lookupKey (m : List (String × GoVal)) (k : String) : Option GoVal :=
  match m with
  | [] => none
  | (k₀, v) :: rest => if k₀ = k then some v else lookupKey rest k

/-- An `unstructured.Unstructured` object as the code uses it: accessible
name, namespace and labels, and the top-level `status` entry of `.Object`
(`none` when the key is absent). Labels are listed in iteration order. -/
structure Unstructured where
  name : String
  ns : String
  labels : List (String × String)
  status : Option GoVal

/-- Modelled from the spec: the output record `utils.BackupJobInfo` (defined
outside this fragment); fields are exactly the ones `list.go` reads/writes. -/
structure BackupJobInfo where
  Name : String := ""
  Namespace : String := ""
  Phase : String := ""
  StartTime : String := ""
  CompletionTime : String := ""
  Labels : String := ""
deriving DecidableEq

/-- Reading `status[k]` followed by the Go string type assertion `.(string)`:
`some none` = field absent or nil (skipped), `some (some s)` = plain string,
`none` = present with a non-string value, i.e. the assertion panics. -/
def readStringField (m : List (String × GoVal)) (k : String) :
    Option (Option String) :=
  match lookupKey m k with
  | none => some none
  | some GoVal.nullv => some none
  | some (GoVal.str s) => some (some s)
  | some (GoVal.mapv _) => none
  | some GoVal.other => none

/-- The label-concatenation loop of `buildBackupJobInfo`:
`info.Labels = info.Labels + fmt.Sprintf("%s:%s ", k, v)` per entry. -/
def labelFold (acc : String) (kv : String × String) : String :=
  acc ++ (kv.1 ++ ":" ++ kv.2 ++ " ")

/-- Embedding of `buildBackupJobInfo(obj, info)`. The Go function mutates
`info` in place; here it returns the updated record, and `none` models a
runtime type-assertion panic (status present but not a string-keyed map, or
a phase/timestamp present but not a plain string). -/
def buildBackupJobInfo (obj : Unstructured) (info : BackupJobInfo) :
    Option BackupJobInfo :=
  let info1 := { info with Labels := obj.labels.foldl labelFold info.Labels }
  match obj.status with
  | none => some info1
  | some GoVal.nullv => some info1
  | some (GoVal.mapv status) =>
    let info2 := { info1 with Name := obj.name, Namespace := obj.ns }
    match readStringField status "phase" with
    | none => none
    | some p =>
      let info3 := match p with
        | some s => { info2 with Phase := s }
        | none => info2
      match readStringField status "completionTimestamp" with
      | none => none
      | some ct =>
        let info4 := match ct with
          | some s => { info3 with CompletionTime := s }
          | none => info3
        match readStringField status "startTimestamp" with
        | none => none
        | some st =>
          some (match st with
            | some s => { info4 with StartTime := s }
            | none => info4)
  | some (GoVal.str _) => none
  | some GoVal.other => none

/-- Modelled from the spec: `types.BackupJobSourceName`, the backup-job
resource kind identifier (a constant defined outside this fragment); its
concrete value is irrelevant to every claim. -/
def BackupJobSourceName : String := "backupjobs"

/-- The dynamic client: `client.Resource(res).Namespace(ns).Get(ctx, name, …)`
modelled as a function of (resource, namespace, name). -/
abbrev Client := String → String → String → Except Err Unstructured

/-- The fields of `ListOptions` that the embedded operations read or write.
The collaborator handles (`Describer`, `NewBuilder`, streams) are external
and are passed to `Run` separately. -/
structure ListOptions where
  Namespace : String := ""
  BuilderArgs : List String := []
  EnforceNamespace : Bool := false
  AllNamespaces : Bool := false
  client : Option Client := none

/-- The slice of `cmdutil.Factory` that `Complete` consumes:
`f.ToRawKubeConfigLoader().Namespace()` (namespace, enforce flag, error),
`f.ToRESTConfig()`, and `dynamic.NewForConfig(config)`. -/
structure Factory where
  namespaceRes : Except Err (String × Bool)
  restConfig : Except Err RESTConfig
  newForConfig : RESTConfig → Except Err Client

/-- Embedding of `ListOptions.Complete(f, args)`. Mutation of the receiver is
modelled by returning the updated options. Note the transcribed slip at the
`ToRESTConfig` error check: the source reads `return nil`, not `return err`,
so that failure path returns success with `o.client` left nil. -/
def Complete (o : ListOptions) (f : Factory) (args : List String) :
    Except Err ListOptions :=
  match f.namespaceRes with
  | .error e => .error e
  | .ok (ns, enforce) =>
    let o := { o with Namespace := ns, EnforceNamespace := enforce }
    let o := if o.AllNamespaces then { o with EnforceNamespace := false } else o
    let o := { o with BuilderArgs := BackupJobSourceName :: args }
    match f.restConfig with
    | .error _ => .ok o
    | .ok config =>
      match f.newForConfig config with
      | .error e => .error e
      | .ok c => .ok { o with client := some c }

/-- An `*resource.Info` as the loop uses it: accessible `Name`, `Namespace`
and `ResourceMapping().Resource` (modelled by its identifier). -/
structure Info where
  name : String
  ns : String
  mapping : String
deriving DecidableEq, Repr

/-- The outcome of the resource-builder query `r`: `r.Err()` and `r.Infos()`.
Both are produced by the external builder collaborator. -/
structure BuilderResult where
  rErr : Option Err
  infosRes : Except Err (List Info)

/-- One call issued to the dynamic client's Get, recording the resource, the
namespace argument and the name argument. -/
structure GetCall where
  resource : String
  ns : String
  name : String
deriving DecidableEq, Repr

/-- The record initialisation done in the loop before the Get:
`backupJobInfo.Namespace = info.Namespace; backupJobInfo.Name = info.Name`. -/
def initRecord (info : Info) : BackupJobInfo :=
  { Namespace := info.ns, Name := info.name }

/-- The Get call the loop issues for `info`:
`o.client.Resource(mapping.Resource).Namespace(o.Namespace).Get(ctx, info.Name, …)`.
The namespace argument is the resolved `o.Namespace`, not `info.Namespace`. -/
def getCallFor (o : ListOptions) (info : Info) : GetCall :=
  ⟨info.mapping, o.Namespace, info.name⟩

/-- The row added for a projected record: `table.AddRow(Namespace, Name,
Phase, CompletionTime, StartTime)`. -/
def rowOf (bi : BackupJobInfo) : List String :=
  [bi.Namespace, bi.Name, bi.Phase, bi.CompletionTime, bi.StartTime]

/-- Outcome of the per-item loop of `Run`: a runtime panic, an early
`return err` (on a failed per-object Get), or normal completion with the
accumulated table rows and aggregated errors. `trace` records every Get call
issued, in order. -/
inductive LoopResult where
  | panicked (trace : List GetCall)
  | fatal (e : Err) (trace : List GetCall)
  | completed (rows : List (List String)) (allErrs : List Err)
      (trace : List GetCall)

/-- Embedding of the `for _, info := range infos` loop of `Run`. `errVar` is
the `err` variable declared before the loop (the result of `r.Infos()`):
inside the loop the Go code re-declares `obj, err :=` in the loop-body scope,
so the outer `err` is shadowed, never re-assigned, and the
`if err != nil` branch after `info.ResourceMapping()` always tests this outer
value. `errs` models the `sets.String` of seen messages, `allErrs` the
aggregate list, `rows` the `table.AddRow` calls after the header. -/
def runLoop (o : ListOptions) (errs : List String) (allErrs : List Err)
    (rows : List (List String)) (trace : List GetCall) :
    Option Err → List Info → LoopResult
  | _, [] => .completed rows allErrs trace
  | some e, _ :: rest =>
    if e ∈ errs then runLoop o errs allErrs rows trace (some e) rest
    else runLoop o (errs ++ [e]) (allErrs ++ [e]) rows trace (some e) rest
  | none, info :: rest =>
    match o.client with
    | none => .panicked trace
    | some c =>
      match c info.mapping o.Namespace info.name with
      | .error e => .fatal e (trace ++ [getCallFor o info])
      | .ok obj =>
        match buildBackupJobInfo obj (initRecord info) with
        | none => .panicked (trace ++ [getCallFor o info])
        | some bi =>
          runLoop o errs allErrs (rows ++ [rowOf bi])
            (trace ++ [getCallFor o info]) none rest

/-- The table header row added before the loop. -/
def headerRow : List String :=
  ["NAMESPACE", "NAME", "PHASE", "COMPLETION_TIME", "CREATE_TIME"]

/-- Embedding of `utilerrors.NewAggregate`: nil on an empty list, otherwise a
single error wrapping the collected messages. -/
def newAggregate (es : List Err) : Option Err :=
  match es with
  | [] => none
  | _ => some (String.intercalate ", " es)

/-- Outcome of `Run`: a runtime panic, or a return carrying the rows written
to the output stream (via `output.EncodeTable`), the lines written to the
error stream, the returned error value and the trace of Get calls. -/
inductive RunResult where
  | panicked (trace : List GetCall)
  | returned (out : List (List String)) (errOut : List String)
      (err : Option Err) (trace : List GetCall)

/-- Embedding of `ListOptions.Run`. The builder chain configuration
(namespace scoping, chunking, flattening) is external; its outcome is the
`BuilderResult` input. On the two early query-error returns and on a
per-object Get failure nothing has been written to either stream. On normal
loop completion the table (header plus accumulated rows) is encoded to the
output stream, the no-resources message is printed when no info and no
error was collected, and the aggregate of `allErrs` is returned. -/
def Run (o : ListOptions) (r : BuilderResult) : RunResult :=
  match r.rErr with
  | some e => .returned [] [] (some e) []
  | none =>
    match r.infosRes with
    | .error e => .returned [] [] (some e) []
    | .ok infos =>
      match runLoop o [] [] [] [] none infos with
      | .panicked tr => .panicked tr
      | .fatal e tr => .returned [] [] (some e) tr
      | .completed rows allErrs tr =>
        let out := headerRow :: rows
        let errOut :=
          if infos.isEmpty && allErrs.isEmpty then
            if o.AllNamespaces then ["No resources found"]
            else ["No resources found in " ++ o.Namespace ++ " namespace."]
          else []
        .returned out errOut (newAggregate allErrs) tr

/-- A Get for `info` succeeds and the fetched object projects without a
panic (the situation claim C5 quantifies over). -/
def fetchOk (o : ListOptions) (c : Client) (info : Info) : Prop :=
  ∃ obj bi, c info.mapping o.Namespace info.name = Except.ok obj ∧
    buildBackupJobInfo obj (initRecord info) = some bi

/-- The row `Run` produces for `info` when its Get and projection succeed
(junk `[]` otherwise; the theorems only use it under `fetchOk`). -/
def projectedRow (o : ListOptions) (c : Client) (info : Info) : List String :=
  match c info.mapping o.Namespace info.name with
  | .error _ => []
  | .ok obj =>
    match buildBackupJobInfo obj (initRecord info) with
    | none => []
    | some bi => rowOf bi

/-- The informational lines `Run` prints to the error stream when the loop
completed with no collected error: one no-resources line if no object
matched, nothing otherwise. -/
def noResourcesLines (o : ListOptions) (infos : List Info) : List String :=
  if infos.isEmpty then
    if o.AllNamespaces then ["No resources found"]
    else ["No resources found in " ++ o.Namespace ++ " namespace."]
  else []

/-- Split a character list at every occurrence of `c` (chunks between
separators; a trailing separator yields a trailing empty chunk). -/
def splitChar (c : Char) : List Char → List (List Char)
  | [] => [[]]
  | x :: xs =>
    if x = c then [] :: splitChar c xs
    else
      match splitChar c xs with
      | [] => [[x]]
      | y :: ys => (x :: y) :: ys

/-- Split a character list at the first occurrence of `c` into the part
before and the part after. -/
def splitOnce (c : Char) : List Char → List Char × List Char
  | [] => ([], [])
  | x :: xs =>
    if x = c then ([], xs)
    else
      let p := splitOnce c xs
      (x :: p.1, p.2)

/-- Parse a concatenated label string back into key/value pairs: split on
spaces, drop empty chunks, split each chunk at its first colon. -/
def parseLabels (cs : List Char) : List (List Char × List Char) :=
  ((splitChar ' ' cs).filter (fun l => !l.isEmpty)).map (splitOnce ':')

/-- A label entry as character data. -/
def labelData (kv : String × String) : List Char × List Char :=
  (kv.1.data, kv.2.data)

/-- Character-level rendering of label entries, one `key:value ` chunk per
entry: the data of the string the label loop builds. -/
def renderData : List (List Char × List Char) → List Char
  | [] => []
  | kv :: rest => kv.1 ++ ':' :: (kv.2 ++ ' ' :: renderData rest)

/-- A label entry the parse can invert: no space in key or value and no
colon in the key (Kubernetes label syntax satisfies this). -/
def wfLabel (kv : String × String) : Prop :=
  ' ' ∉ kv.1.data ∧ ':' ∉ kv.1.data ∧ ' ' ∉ kv.2.data

/-- Factory whose `ToRESTConfig` fails; namespace resolution succeeds with
namespace `default` and enforce-namespace set. -/
def c1Factory : Factory :=
  ⟨.ok ("default", true), .error "connection refused", fun _ => .error "unused"⟩

/-- An object that carries a name, a namespace and one label but no
`status` entry at all. -/
def noStatusObj : Unstructured :=
  ⟨"backup-1", "prod", [("app", "db")], none⟩

/-- The options record Complete produces for an all-namespaces invocation
with one positional argument against `c1Factory`. -/
def c9Result : ListOptions :=
  { Namespace := "default",
    EnforceNamespace := false,
    AllNamespaces := true,
    BuilderArgs := [BackupJobSourceName, "job-a"],
    client := none }

/-- A well-formed fetched object: one label and a status map with all three
string fields present. -/
def okObj : Unstructured :=
  ⟨"backup-1", "prod", [("app", "db")],
    some (GoVal.mapv
      [("phase", GoVal.str "Completed"),
       ("completionTimestamp", GoVal.str "2022-01-02T03:04:05Z"),
       ("startTimestamp", GoVal.str "2022-01-01T03:04:05Z")])⟩

/-- The projected record for `okObj` after the loop preset. -/
def okRecord : BackupJobInfo :=
  { Name := "backup-1",
    Namespace := "prod",
    Phase := "Completed",
    StartTime := "2022-01-01T03:04:05Z",
    CompletionTime := "2022-01-02T03:04:05Z",
    Labels := "app:db " }

/-- A client that answers every Get with `okObj`. -/
def okClient : Client := fun _ _ _ => Except.ok okObj

/-- A client that fails Gets for the name `bad` and otherwise answers with
`okObj`. -/
def badNameClient : Client := fun _ _ name =>
  if name = "bad" then Except.error "boom" else Except.ok okObj

/-- Options resolved to namespace `default` with the always-succeeding
client. -/
def c5Opts : ListOptions := { Namespace := "default", client := some okClient }

/-- A listing entry for `okObj`. -/
def c5Info : Info := ⟨"backup-1", "prod", "backupjobs"⟩

/-- A builder outcome returning the single entry `c5Info`. -/
def c5Builder : BuilderResult := ⟨none, Except.ok [c5Info]⟩

/-- Options resolved to namespace `default` with the name-sensitive failing
client. -/
def c4Opts : ListOptions :=
  { Namespace := "default", client := some badNameClient }

/-- A listing entry whose re-fetch fails under `badNameClient`. -/
def badInfo : Info := ⟨"bad", "prod", "backupjobs"⟩

/-- A builder outcome with one good entry followed by the failing one. -/
def c4Builder : BuilderResult := ⟨none, Except.ok [c5Info, badInfo]⟩

/-- Options for the empty-result scenario (no client needed: the loop body
never runs). -/
def c6Opts : ListOptions := { Namespace := "default" }

/-- A builder outcome matching zero objects. -/
def c6Builder : BuilderResult := ⟨none, Except.ok []⟩

/-- All-namespaces options with the always-succeeding client, resolved
namespace `default`. -/
def c10Opts : ListOptions :=
  { Namespace := "default", AllNamespaces := true, client := some okClient }

/-- A listing entry living in namespace `other`, different from the
resolved namespace `default`. -/
def otherNsInfo : Info := ⟨"backup-2", "other", "backupjobs"⟩

/-- A builder outcome returning the single entry `otherNsInfo`. -/
def c10Builder : BuilderResult := ⟨none, Except.ok [otherNsInfo]⟩

/-- A status field present with a non-nil, non-string value: the Go
`.(string)` assertion on it panics. -/
def badStringField (m : List (String × GoVal)) (k : String) : Prop :=
  ∃ v, lookupKey m k = some v ∧ v ≠ GoVal.nullv ∧ ∀ s, v ≠ GoVal.str s

/-- A status entry present and non-nil but not a string-keyed mapping: the
Go map type assertion on it panics. -/
def badStatusShape (obj : Unstructured) : Prop :=
  ∃ v, obj.status = some v ∧ v ≠ GoVal.nullv ∧ ∀ m, v ≠ GoVal.mapv m

/-- An object whose status entry is a plain string instead of a mapping. -/
def malformedObj : Unstructured :=
  ⟨"backup-3", "prod", [], some (GoVal.str "Running")⟩

/-! Theorems. -/

/-- C1: the spec says Complete fails when namespace resolution or client
construction fails; but on a `ToRESTConfig` failure the code executes
`return nil` (not `return err`), so Complete succeeds, with the options
populated up to that point and `client` left nil. This theorem evaluates
Complete at a factory whose `ToRESTConfig` fails and shows it returns
success with no client - the divergence between spec and code. -/
theorem complete_swallows_restconfig_error :
    Complete {} c1Factory [] =
      Except.ok { Namespace := "default",
                  EnforceNamespace := true,
                  BuilderArgs := [BackupJobSourceName],
                  client := none } := rfl

/-- C2 counterexample: for an object that carries a name (`backup-1`) and a
namespace (`prod`) but no status entry, buildBackupJobInfo leaves the
record's Name and Namespace exactly as passed in - empty on a fresh record -
because the `info.Name = obj.GetName()` assignments sit after the
nil-status early return. The claim's "Name and Namespace non-empty when the
object carries them" is therefore false of buildBackupJobInfo. -/
theorem build_no_status_name_empty :
    noStatusObj.name = "backup-1" ∧ noStatusObj.ns = "prod" ∧
      noStatusObj.status = none ∧
      buildBackupJobInfo noStatusObj {} = some { Labels := "app:db " } ∧
      ({ Labels := "app:db " } : BackupJobInfo).Name = "" ∧
      ({ Labels := "app:db " } : BackupJobInfo).Namespace = "" :=
  ⟨rfl, rfl, rfl, rfl, rfl, rfl⟩

/-- C2 amended: for every object whose status entry is absent (or nil),
buildBackupJobInfo populates only Labels (appending each label as
`key:value `) and leaves Name, Namespace, Phase, CompletionTime and
StartTime unchanged from the record passed in; Name and Namespace are set
by the caller (Run pre-populates them from the listing entry), not here. -/
theorem build_no_status_amended (obj : Unstructured)
    (info res : BackupJobInfo)
    (hs : obj.status = none ∨ obj.status = some GoVal.nullv)
    (h : buildBackupJobInfo obj info = some res) :
    res.Name = info.Name ∧ res.Namespace = info.Namespace ∧
      res.Phase = info.Phase ∧ res.CompletionTime = info.CompletionTime ∧
      res.StartTime = info.StartTime ∧
      res.Labels = obj.labels.foldl labelFold info.Labels := by
  rcases hs with hs | hs <;> rw [buildBackupJobInfo, hs] at h <;>
    · injection h with h
      subst h
      exact ⟨rfl, rfl, rfl, rfl, rfl, rfl⟩

/-- Witness for the amended C2 theorem at a concrete no-status object. -/
theorem build_no_status_amended_witness :
    ({ Labels := "app:db " } : BackupJobInfo).Name =
        ({} : BackupJobInfo).Name ∧
      ({ Labels := "app:db " } : BackupJobInfo).Namespace =
        ({} : BackupJobInfo).Namespace ∧
      ({ Labels := "app:db " } : BackupJobInfo).Phase =
        ({} : BackupJobInfo).Phase ∧
      ({ Labels := "app:db " } : BackupJobInfo).CompletionTime =
        ({} : BackupJobInfo).CompletionTime ∧
      ({ Labels := "app:db " } : BackupJobInfo).StartTime =
        ({} : BackupJobInfo).StartTime ∧
      ({ Labels := "app:db " } : BackupJobInfo).Labels =
        noStatusObj.labels.foldl labelFold ({} : BackupJobInfo).Labels :=
  build_no_status_amended noStatusObj {} _ (Or.inl rfl) rfl

/-- C9: every successful Complete clears the enforce-namespace flag when
all-namespaces was requested (whatever the resolver returned for it) and
sets BuilderArgs to the backup-job resource kind identifier followed by the
positional arguments in order. -/
theorem complete_flags_and_builder_args (o : ListOptions) (f : Factory)
    (args : List String) (o₂ : ListOptions)
    (h : Complete o f args = Except.ok o₂) :
    (o.AllNamespaces = true → o₂.EnforceNamespace = false) ∧
      o₂.BuilderArgs = BackupJobSourceName :: args := by
  unfold Complete at h
  rcases hn : f.namespaceRes with e | ⟨ns, enforce⟩ <;> rw [hn] at h
  · exact absurd h (by simp)
  · rcases hr : f.restConfig with e | config <;> rw [hr] at h <;>
      simp only at h
    · cases h
      by_cases ha : o.AllNamespaces <;> simp [ha]
    · rcases hc : f.newForConfig config with e | c <;> rw [hc] at h <;>
        simp only at h
      · exact absurd h (by simp)
      · cases h
        by_cases ha : o.AllNamespaces <;> simp [ha]

/-- Witness for C9 at a concrete all-namespaces invocation. -/
theorem complete_flags_and_builder_args_witness :
    (({ AllNamespaces := true } : ListOptions).AllNamespaces = true →
        c9Result.EnforceNamespace = false) ∧
      c9Result.BuilderArgs = BackupJobSourceName :: ["job-a"] :=
  complete_flags_and_builder_args { AllNamespaces := true } c1Factory
    ["job-a"] c9Result rfl

/-- When every Get and projection succeeds, the loop (with its stale error
variable nil) completes, appending one row and one Get call per entry and
leaving both error accumulators untouched. -/
theorem runLoop_ok (o : ListOptions) (c : Client) (hc : o.client = some c)
    (infos : List Info) :
    ∀ (errs : List String) (aE : List Err) (rows : List (List String))
      (tr : List GetCall), (∀ i ∈ infos, fetchOk o c i) →
      runLoop o errs aE rows tr none infos =
        LoopResult.completed (rows ++ infos.map (projectedRow o c)) aE
          (tr ++ infos.map (getCallFor o)) := by
  induction infos with
  | nil => intro errs aE rows tr _; simp [runLoop]
  | cons info rest ih =>
    intro errs aE rows tr h
    obtain ⟨obj, bi, hget, hbuild⟩ := h info (List.mem_cons_self _ _)
    simp only [runLoop, hc, hget, hbuild]
    rw [ih _ _ _ _ (fun i hi => h i (List.mem_cons_of_mem _ hi))]
    simp [projectedRow, hget, hbuild]

/-- When all Gets before a failing one succeed, the loop returns that Get's
error immediately, having accumulated no output row. -/
theorem runLoop_fatal (o : ListOptions) (c : Client) (hc : o.client = some c)
    (bad : Info) (post : List Info) (e : Err)
    (hbad : c bad.mapping o.Namespace bad.name = Except.error e) :
    ∀ (pre : List Info) (errs : List String) (aE : List Err)
      (rows : List (List String)) (tr : List GetCall),
      (∀ i ∈ pre, fetchOk o c i) →
      runLoop o errs aE rows tr none (pre ++ bad :: post) =
        LoopResult.fatal e
          (tr ++ pre.map (getCallFor o) ++ [getCallFor o bad]) := by
  intro pre
  induction pre with
  | nil => intro errs aE rows tr _; simp [runLoop, hc, hbad]
  | cons i rest ih =>
    intro errs aE rows tr h
    obtain ⟨obj, bi, hget, hbuild⟩ := h i (List.mem_cons_self _ _)
    simp only [List.cons_append, runLoop, hc, hget, hbuild, List.append_eq]
    rw [ih _ _ _ _ (fun j hj => h j (List.mem_cons_of_mem _ hj))]
    simp

/-- With the stale error variable nil, a completed loop never touched the
aggregate error list. -/
theorem runLoop_stale_nil_allErrs (o : ListOptions) (infos : List Info) :
    ∀ (errs : List String) (aE : List Err) (rows : List (List String))
      (tr : List GetCall) (rows₂ : List (List String)) (aE₂ : List Err)
      (tr₂ : List GetCall),
      runLoop o errs aE rows tr none infos =
        LoopResult.completed rows₂ aE₂ tr₂ →
      aE₂ = aE := by
  induction infos with
  | nil =>
    intro errs aE rows tr rows₂ aE₂ tr₂ h
    rw [runLoop] at h
    cases h
    rfl
  | cons info rest ih =>
    intro errs aE rows tr rows₂ aE₂ tr₂ h
    rw [runLoop] at h
    cases hcl : o.client with
    | none =>
      simp only [hcl] at h
      exact absurd h (by simp)
    | some c =>
      simp only [hcl] at h
      cases hget : c info.mapping o.Namespace info.name with
      | error e =>
        simp only [hget] at h
        exact absurd h (by simp)
      | ok obj =>
        simp only [hget] at h
        cases hb : buildBackupJobInfo obj (initRecord info) with
        | none =>
          simp only [hb] at h
          exact absurd h (by simp)
        | some bi =>
          simp only [hb] at h
          exact ih _ _ _ _ _ _ _ h

/-- C3: the error branch after `info.ResourceMapping()` tests the `err`
variable left over from the `r.Infos()` query (the per-item Get re-declares
its own `err` in an inner scope), which is necessarily nil inside the loop;
so the branch never runs, `allErrs` stays as it started, and whenever Run
finishes the loop normally (it rendered the table, so its output starts
with the header row) the aggregate error it returns is nil. -/
theorem run_dead_error_branch (o : ListOptions) :
    (∀ (errs : List String) (aE : List Err) (rows : List (List String))
        (tr : List GetCall) (infos : List Info)
        (rows₂ : List (List String)) (aE₂ : List Err) (tr₂ : List GetCall),
      runLoop o errs aE rows tr none infos =
        LoopResult.completed rows₂ aE₂ tr₂ →
      aE₂ = aE) ∧
    (∀ (r : BuilderResult) (rows : List (List String))
        (errOut : List String) (err : Option Err) (tr : List GetCall),
      Run o r = RunResult.returned (headerRow :: rows) errOut err tr →
        err = none) := by
  constructor
  · intro errs aE rows tr infos rows₂ aE₂ tr₂ h
    exact runLoop_stale_nil_allErrs o infos errs aE rows tr rows₂ aE₂ tr₂ h
  · intro r rows errOut err tr h
    unfold Run at h
    cases hre : r.rErr with
    | some e =>
      simp only [hre] at h
      exact absurd h (by simp)
    | none =>
      simp only [hre] at h
      cases hri : r.infosRes with
      | error e =>
        simp only [hri] at h
        exact absurd h (by simp)
      | ok infos =>
        simp only [hri] at h
        cases hloop : runLoop o [] [] [] [] none infos with
        | panicked tr₂ =>
          simp only [hloop] at h
          exact absurd h (by simp)
        | fatal e₂ tr₂ =>
          simp only [hloop] at h
          exact absurd h (by simp [headerRow])
        | completed rows₂ aE₂ tr₂ =>
          have haE : aE₂ = [] :=
            runLoop_stale_nil_allErrs o infos [] [] [] [] rows₂ aE₂ tr₂ hloop
          simp only [hloop, RunResult.returned.injEq] at h
          rw [← h.2.2.1, haE]
          rfl

/-- Witness for C3 at a concrete one-object run: the completed loop kept the
aggregate list empty and the finished Run returned a nil error. -/
theorem run_dead_error_branch_witness :
    ([] : List Err) = [] ∧ (none : Option Err) = none :=
  ⟨(run_dead_error_branch c5Opts).1 [] [] [] [] [c5Info]
      [rowOf okRecord] [] [getCallFor c5Opts c5Info] rfl,
    (run_dead_error_branch c5Opts).2 c5Builder [rowOf okRecord] []
      none [getCallFor c5Opts c5Info] rfl⟩

/-- A fully successful run, characterised: header plus one projected row
per entry, the no-resources lines, a nil returned error and one Get call
per entry. -/
theorem run_ok_eq (o : ListOptions) (c : Client) (r : BuilderResult)
    (infos : List Info) (hc : o.client = some c) (h1 : r.rErr = none)
    (h2 : r.infosRes = Except.ok infos) (hf : ∀ i ∈ infos, fetchOk o c i) :
    Run o r =
      RunResult.returned (headerRow :: infos.map (projectedRow o c))
        (noResourcesLines o infos) none (infos.map (getCallFor o)) := by
  unfold Run
  simp only [h1, h2]
  simp only [runLoop_ok o c hc infos [] [] [] [] hf]
  cases infos with
  | nil => simp [noResourcesLines, newAggregate]
  | cons i is => simp [noResourcesLines, newAggregate]

/-- C5: when the query succeeds and every per-object re-fetch (and
projection) succeeds, Run writes exactly the header row followed by one row
per matched object, in order, each row holding the object's projected
namespace, name, phase, completion time and start time, and returns no
error. -/
theorem run_success_table (o : ListOptions) (c : Client) (r : BuilderResult)
    (infos : List Info) (hc : o.client = some c) (h1 : r.rErr = none)
    (h2 : r.infosRes = Except.ok infos) (hf : ∀ i ∈ infos, fetchOk o c i) :
    Run o r =
      RunResult.returned (headerRow :: infos.map (projectedRow o c))
        (noResourcesLines o infos) none (infos.map (getCallFor o)) :=
  run_ok_eq o c r infos hc h1 h2 hf

/-- Witness for C5 at a one-object run whose Get succeeds. -/
theorem run_success_table_witness :
    Run c5Opts c5Builder =
      RunResult.returned (headerRow :: [c5Info].map (projectedRow c5Opts okClient))
        (noResourcesLines c5Opts [c5Info]) none
        ([c5Info].map (getCallFor c5Opts)) :=
  run_success_table c5Opts okClient c5Builder [c5Info] rfl rfl rfl
    (by
      intro i hi
      obtain rfl := List.mem_singleton.mp hi
      exact ⟨okObj, okRecord, rfl, rfl⟩)

/-- C4: if the re-fetch for some object fails, Run returns that error
immediately: the table is never encoded, so no row (header included) is
written to the output stream, nothing is written to the error stream, and
the rows accumulated for the earlier objects are discarded. -/
theorem run_fetch_error_aborts (o : ListOptions) (c : Client)
    (r : BuilderResult) (pre : List Info) (bad : Info) (post : List Info)
    (e : Err) (hc : o.client = some c) (h1 : r.rErr = none)
    (h2 : r.infosRes = Except.ok (pre ++ bad :: post))
    (hpre : ∀ i ∈ pre, fetchOk o c i)
    (hbad : c bad.mapping o.Namespace bad.name = Except.error e) :
    Run o r = RunResult.returned [] [] (some e)
      (pre.map (getCallFor o) ++ [getCallFor o bad]) := by
  unfold Run
  simp only [h1, h2]
  simp only [runLoop_fatal o c hc bad post e hbad pre [] [] [] [] hpre]
  simp

/-- Witness for C4: one good object, then one whose Get fails with `boom`. -/
theorem run_fetch_error_aborts_witness :
    Run c4Opts c4Builder = RunResult.returned [] [] (some "boom")
      ([c5Info].map (getCallFor c4Opts) ++ [getCallFor c4Opts badInfo]) :=
  run_fetch_error_aborts c4Opts badNameClient c4Builder [c5Info] badInfo []
    "boom" rfl rfl rfl
    (by
      intro i hi
      obtain rfl := List.mem_singleton.mp hi
      exact ⟨okObj, okRecord, rfl, rfl⟩)
    rfl

/-- C6: when the query succeeds, if zero objects matched (the loop then
collects no error) exactly one informational line goes to the error stream,
`No resources found` under the all-namespaces flag and
`No resources found in NAMESPACE namespace.` otherwise; and if at least one
object matched, no such line is written however the run ends. -/
theorem run_no_resources_message (o : ListOptions) (r : BuilderResult)
    (infos : List Info) (out : List (List String)) (errOut : List String)
    (err : Option Err) (tr : List GetCall) (h1 : r.rErr = none)
    (h2 : r.infosRes = Except.ok infos)
    (h : Run o r = RunResult.returned out errOut err tr) :
    (infos = [] →
      errOut = [if o.AllNamespaces then "No resources found"
                else "No resources found in " ++ o.Namespace ++
                  " namespace."]) ∧
    (infos ≠ [] → errOut = []) := by
  constructor
  · rintro rfl
    unfold Run at h
    simp only [h1, h2, runLoop] at h
    cases h
    by_cases ha : o.AllNamespaces <;> simp [ha]
  · intro hne
    cases infos with
    | nil => exact absurd rfl hne
    | cons i is =>
      unfold Run at h
      simp only [h1, h2] at h
      cases hloop : runLoop o [] [] [] [] none (i :: is) with
      | panicked tr₂ =>
        simp only [hloop] at h
        exact absurd h (by simp)
      | fatal e₂ tr₂ =>
        simp only [hloop] at h
        cases h
        rfl
      | completed rows₂ aE₂ tr₂ =>
        simp only [hloop] at h
        cases h
        simp

/-- Witness for C6 at a zero-object run in a single-namespace scope. -/
theorem run_no_resources_message_witness :
    (["No resources found in default namespace."] : List String) =
      [if c6Opts.AllNamespaces then "No resources found"
       else "No resources found in " ++ c6Opts.Namespace ++ " namespace."] :=
  (run_no_resources_message c6Opts c6Builder [] [headerRow]
      ["No resources found in default namespace."] none [] rfl rfl rfl).1 rfl

/-- C10: every Get the loop issues carries the resolved `o.Namespace` and
the entry's name - not the entry's own namespace - so in all-namespaces
mode an object living elsewhere is looked up in the wrong namespace. -/
theorem run_get_namespace (o : ListOptions) (c : Client) (r : BuilderResult)
    (infos : List Info) (out : List (List String)) (errOut : List String)
    (err : Option Err) (tr : List GetCall) (hc : o.client = some c)
    (h1 : r.rErr = none) (h2 : r.infosRes = Except.ok infos)
    (hf : ∀ i ∈ infos, fetchOk o c i)
    (h : Run o r = RunResult.returned out errOut err tr) :
    tr = infos.map (getCallFor o) ∧
      ∀ i ∈ infos, (getCallFor o i).ns = o.Namespace ∧
        (getCallFor o i).name = i.name ∧
        (i.ns ≠ o.Namespace → (getCallFor o i).ns ≠ i.ns) := by
  rw [run_ok_eq o c r infos hc h1 h2 hf] at h
  cases h
  exact ⟨rfl, fun i _ => ⟨rfl, rfl, fun hne h' => hne h'.symm⟩⟩

/-- Witness for C10: in all-namespaces mode, the object listed in namespace
`other` is fetched with namespace argument `default`, the resolved one. -/
theorem run_get_namespace_witness :
    ([getCallFor c10Opts otherNsInfo] =
        [otherNsInfo].map (getCallFor c10Opts)) ∧
      (getCallFor c10Opts otherNsInfo).ns = c10Opts.Namespace ∧
      otherNsInfo.ns = "other" ∧ c10Opts.Namespace = "default" :=
  ⟨(run_get_namespace c10Opts okClient c10Builder [otherNsInfo]
      (headerRow :: [otherNsInfo].map (projectedRow c10Opts okClient))
      (noResourcesLines c10Opts [otherNsInfo]) none
      ([otherNsInfo].map (getCallFor c10Opts)) rfl rfl rfl
      (by
        intro i hi
        obtain rfl := List.mem_singleton.mp hi
        exact ⟨okObj, okRecord, rfl, rfl⟩)
      rfl).1,
    ((run_get_namespace c10Opts okClient c10Builder [otherNsInfo]
      (headerRow :: [otherNsInfo].map (projectedRow c10Opts okClient))
      (noResourcesLines c10Opts [otherNsInfo]) none
      ([otherNsInfo].map (getCallFor c10Opts)) rfl rfl rfl
      (by
        intro i hi
        obtain rfl := List.mem_singleton.mp hi
        exact ⟨okObj, okRecord, rfl, rfl⟩)
      rfl).2 otherNsInfo (List.mem_singleton.mpr rfl)).1,
    rfl, rfl⟩

/-- Character data of one label-fold step. -/
theorem labelFold_data (a : String) (kv : String × String) :
    (labelFold a kv).data = a.data ++ (kv.1.data ++ ':' :: (kv.2.data ++ [' '])) := by
  simp [labelFold, String.data_append]

/-- Character data of the whole label fold: the rendered chunks in order. -/
theorem foldl_labelFold_data (l : List (String × String)) :
    ∀ a : String, (l.foldl labelFold a).data = a.data ++ renderData (l.map labelData) := by
  induction l with
  | nil => intro a; simp [renderData]
  | cons kv rest ih =>
    intro a
    simp only [List.foldl_cons, List.map_cons, renderData]
    rw [ih (labelFold a kv), labelFold_data]
    simp [labelData]

/-- Splitting recovers a separator-free chunk before the first separator. -/
theorem splitChar_not_mem (c : Char) (chunk rest : List Char)
    (h : c ∉ chunk) :
    splitChar c (chunk ++ c :: rest) = chunk :: splitChar c rest := by
  induction chunk with
  | nil => simp [splitChar]
  | cons x xs ih =>
    have hx : ¬x = c := fun hxc => h (by simp [hxc])
    have h' : c ∉ xs := fun hm => h (List.mem_cons_of_mem _ hm)
    rw [List.cons_append, splitChar]
    rw [if_neg hx, ih h']

/-- Splitting once at the first occurrence recovers both halves when the
first half is separator-free. -/
theorem splitOnce_not_mem (c : Char) (k v : List Char) (h : c ∉ k) :
    splitOnce c (k ++ c :: v) = (k, v) := by
  induction k with
  | nil => simp [splitOnce]
  | cons x xs ih =>
    have hx : ¬x = c := fun hxc => h (by simp [hxc])
    have h' : c ∉ xs := fun hm => h (List.mem_cons_of_mem _ hm)
    rw [List.cons_append, splitOnce]
    rw [if_neg hx, ih h']

/-- Parsing inverts rendering on well-formed label entries. -/
theorem parse_renderData (l : List (List Char × List Char))
    (h : ∀ kv ∈ l, ' ' ∉ kv.1 ∧ ':' ∉ kv.1 ∧ ' ' ∉ kv.2) :
    parseLabels (renderData l) = l := by
  induction l with
  | nil => rfl
  | cons kv rest ih =>
    obtain ⟨k, v⟩ := kv
    obtain ⟨h1, h2, h3⟩ := h (k, v) (List.mem_cons_self _ _)
    have hrest := ih fun j hj => h j (List.mem_cons_of_mem _ hj)
    have hsp : ' ' ∉ k ++ ':' :: v := by
      intro hm
      rcases List.mem_append.mp hm with hm | hm
      · exact h1 hm
      · rcases List.mem_cons.mp hm with hm | hm
        · exact absurd hm (by decide)
        · exact h3 hm
    have hne : (k ++ ':' :: v).isEmpty = false := by
      cases k <;> rfl
    have hassoc : renderData ((k, v) :: rest) =
        (k ++ ':' :: v) ++ ' ' :: renderData rest := by
      rw [renderData]
      simp
    unfold parseLabels
    rw [hassoc, splitChar_not_mem _ _ _ hsp]
    simp only [List.filter_cons, hne, Bool.not_false, if_true, List.map_cons]
    rw [splitOnce_not_mem _ _ _ h2]
    unfold parseLabels at hrest
    rw [hrest]

/-- Every success of buildBackupJobInfo carries the folded label string,
whatever the status shape contributed to the other fields. -/
theorem build_labels_eq (obj : Unstructured) (info res : BackupJobInfo)
    (h : buildBackupJobInfo obj info = some res) :
    res.Labels = obj.labels.foldl labelFold info.Labels := by
  unfold buildBackupJobInfo at h
  cases hs : obj.status with
  | none =>
    simp only [hs] at h
    cases h
    rfl
  | some v =>
    cases v with
    | nullv =>
      simp only [hs] at h
      cases h
      rfl
    | str s =>
      simp only [hs] at h
      exact Option.noConfusion h
    | other =>
      simp only [hs] at h
      exact Option.noConfusion h
    | mapv m =>
      simp only [hs] at h
      cases hp : readStringField m "phase" with
      | none =>
        simp only [hp] at h
        exact Option.noConfusion h
      | some p =>
        simp only [hp] at h
        cases hct : readStringField m "completionTimestamp" with
        | none =>
          simp only [hct] at h
          exact Option.noConfusion h
        | some ct =>
          simp only [hct] at h
          cases hst : readStringField m "startTimestamp" with
          | none =>
            simp only [hst] at h
            exact Option.noConfusion h
          | some st =>
            simp only [hst] at h
            cases h
            cases st <;> cases ct <;> cases p <;> rfl

/-- C7: on a fresh record, the label string buildBackupJobInfo produces
parses back - split on spaces, then each chunk at its first colon - to
exactly the object's label entries: every key:value pair appears exactly
once, as `key:value ` with a single trailing space, in whatever order the
(unordered) map iteration supplied; the multiset of parsed pairs equals the
mapping's entries. -/
theorem build_labels_parse_multiset (obj : Unstructured)
    (info res : BackupJobInfo) (hL : info.Labels = "")
    (hwf : ∀ kv ∈ obj.labels, wfLabel kv)
    (h : buildBackupJobInfo obj info = some res) :
    (↑(parseLabels res.Labels.data) : Multiset (List Char × List Char)) =
      ↑(obj.labels.map labelData) := by
  have hdata : res.Labels.data = renderData (obj.labels.map labelData) := by
    rw [build_labels_eq obj info res h, foldl_labelFold_data, hL]
    rfl
  rw [hdata, parse_renderData]
  intro kv hkv
  obtain ⟨j, hj, rfl⟩ := List.mem_map.mp hkv
  exact hwf j hj

/-- Witness for C7 at the concrete one-label object `okObj`. -/
theorem build_labels_parse_multiset_witness :
    (↑(parseLabels okRecord.Labels.data) : Multiset (List Char × List Char)) =
      ↑(okObj.labels.map labelData) :=
  build_labels_parse_multiset okObj (initRecord c5Info) okRecord rfl
    (by
      intro kv hkv
      obtain rfl := List.mem_singleton.mp hkv
      exact ⟨by decide, by decide, by decide⟩) rfl

/-- C8: when the status entry is present but not a string-keyed mapping, or
when `status.phase`, `status.completionTimestamp` or
`status.startTimestamp` is present with a non-string value,
buildBackupJobInfo aborts with a runtime type-assertion panic (modelled as
`none`) instead of returning a handled error or skipping the field. -/
theorem build_malformed_status_panics (obj : Unstructured)
    (info : BackupJobInfo)
    (h : badStatusShape obj ∨
      ∃ m, obj.status = some (GoVal.mapv m) ∧
        (badStringField m "phase" ∨ badStringField m "completionTimestamp" ∨
          badStringField m "startTimestamp")) :
    buildBackupJobInfo obj info = none := by
  have hread : ∀ m k, badStringField m k → readStringField m k = none := by
    rintro m k ⟨v, hv, hnn, hns⟩
    unfold readStringField
    rw [hv]
    cases v with
    | nullv => exact absurd rfl hnn
    | str s => exact absurd rfl (hns s)
    | mapv m₂ => rfl
    | other => rfl
  unfold buildBackupJobInfo
  rcases h with ⟨v, hv, hnn, hnm⟩ | ⟨m, hm, hbad⟩
  · simp only [hv]
    cases v with
    | nullv => exact absurd rfl hnn
    | mapv m => exact absurd rfl (hnm m)
    | str s => rfl
    | other => rfl
  · simp only [hm]
    rcases hbad with hb | hb | hb
    · simp only [hread m _ hb]
    · cases hp : readStringField m "phase" with
      | none => simp only [hp]
      | some p => simp only [hp, hread m _ hb]
    · cases hp : readStringField m "phase" with
      | none => simp only [hp]
      | some p =>
        cases hct : readStringField m "completionTimestamp" with
        | none => simp only [hp, hct]
        | some ct => simp only [hp, hct, hread m _ hb]

/-- Witness for C8 at an object whose status is a plain string. -/
theorem build_malformed_status_panics_witness :
    buildBackupJobInfo malformedObj {} = none :=
  build_malformed_status_panics malformedObj {}
    (Or.inl ⟨GoVal.str "Running", rfl, fun hh => GoVal.noConfusion hh,
      fun _ hh => GoVal.noConfusion hh⟩)

end BackupList
